import Mathlib

/-
Verification development for the book-price-tracker repository.

The first part is a shallow embedding of the frontend presentation layer
(src/frontend/src): the data shapes of types/index.ts, the formatting
utilities, the attention-issue classification of Books.tsx and of the
BooksNeedingAttention component, the savings computation of Alerts.tsx
and RecentAlerts.tsx, and the endpoint surface of the API client.

The second part models the synchronization / comparison / alerting
pipeline from the design document (spec.md §4): the pipeline itself is
not part of the checked sources, so those definitions are modelled from
the spec and are marked as such in their doc comments.

JavaScript numbers are embedded as rationals (Rat); nullable fields
(T | null | undefined) are embedded as Option.
-/

namespace BookTracker

/-- Book record, translated from the Book TS interface
(src/frontend/src/types/index.ts).  The isbn field is a plain String
(non-nullable in the source interface); the other descriptive fields are
nullable and hence Options. -/
structure Book where
  id : Nat
  isbn : String
  title : Option String
  author : Option String
  packt_price : Option Rat
  packt_url : Option String
  last_updated : Option String
  created_at : Option String
deriving DecidableEq

/-- Alert record, translated from the Alert TS interface
(src/frontend/src/types/index.ts).  packt_price and third_party_price
are non-nullable numbers in the source. -/
structure Alert where
  id : Nat
  book_id : Nat
  book : Option Book
  threshold_type : String
  threshold_value : Rat
  packt_price : Rat
  third_party_price : Rat
  third_party_source : String
  notified_at : String
  status : String
deriving DecidableEq

/-- Integer cents of the absolute value of a price, rounded to the
nearest hundredth: the numeric core of the toFixed(2) rendering used by
formatPrice. -/
def centsOf (q : Rat) : Nat :=
  (Rat.floor (|q| * 100 + 1 / 2)).toNat

/-- Sign part of the toFixed(2) rendering. -/
def signStr (q : Rat) : String :=
  if q < 0 then "-" else ""

/-- Decimal rendering of a number with exactly two digits after the
point, as produced by JavaScript's toFixed(2) on the value. -/
def toFixed2 (q : Rat) : String :=
  signStr q ++ toString (centsOf q / 100) ++ "." ++
    String.mk [Nat.digitChar (centsOf q / 10 % 10), Nat.digitChar (centsOf q % 10)]

/-- formatPrice, translated from src/frontend/src/utils/formatters.ts:
null or undefined input yields the string N/A, any number p yields a
dollar sign followed by p rendered with two decimal places. -/
def formatPrice : Option Rat → String
  | none => "N/A"
  | some p => "$" ++ toFixed2 p

/-- Savings value computed by the Alerts page
(src/frontend/src/pages/Alerts.tsx, Savings cell):
alert.packt_price - alert.third_party_price. -/
def alertSavings (a : Alert) : Rat :=
  a.packt_price - a.third_party_price

/-- Text of the Savings cell on the Alerts page:
formatPrice(alert.packt_price - alert.third_party_price). -/
def savingsCellText (a : Alert) : String :=
  formatPrice (some (a.packt_price - a.third_party_price))

/-- Text of the Save span in the RecentAlerts dashboard component
(src/frontend/src/components/dashboard/RecentAlerts.tsx):
formatPrice(alert.packt_price - alert.third_party_price). -/
def recentAlertsSaveText (a : Alert) : String :=
  formatPrice (some (a.packt_price - a.third_party_price))

/-- JavaScript truthiness test for an optional string combined with the
blank test used in Books.tsx and BooksNeedingAttention:
(!s || s.trim() === '') over a string-or-null value. -/
def strMissing : Option String → Bool
  | none => true
  | some s => s == "" || s.trim == ""

/-- JavaScript falsiness of an optional number, as used by the
(!book.packt_price) checks: true exactly on null, undefined and 0. -/
def jsPriceFalsy : Option Rat → Bool
  | none => true
  | some p => p == 0

/-- getAttentionIssues, translated from src/frontend/src/pages/Books.tsx:
pushes the Missing Author, Missing URL and Missing Price labels in that
order, guarded by the corresponding falsiness checks. -/
def getAttentionIssues (b : Book) : List String :=
  (if strMissing b.author then ["Missing Author"] else []) ++
  (if strMissing b.packt_url then ["Missing URL"] else []) ++
  (if jsPriceFalsy b.packt_price then ["Missing Price"] else [])

/-- Membership test of a book in the missing_price group of the
BooksNeedingAttention component (booksByIssue): the source pushes the
book when (!book.packt_price). -/
def inMissingPriceGroup (b : Book) : Bool :=
  jsPriceFalsy b.packt_price

/-- Shape of an HTTP response body: a JSON object with a fixed list of
field names, or a bare JSON array. -/
inductive ResponseShape where
  | obj : List String → ResponseShape
  | arr : ResponseShape
deriving DecidableEq

/-- Fields of BookListResponse (src/frontend/src/types/index.ts). -/
def bookListResponseShape : ResponseShape :=
  .obj ["books", "total", "page", "limit", "total_pages"]

/-- Fields of AlertListResponse (src/frontend/src/types/index.ts). -/
def alertListResponseShape : ResponseShape :=
  .obj ["alerts", "total", "page", "limit", "total_pages"]

/-- Fields of SyncHistoryListResponse (src/frontend/src/types/index.ts):
only the item list and the total count. -/
def syncHistoryListResponseShape : ResponseShape :=
  .obj ["history", "total"]

/-- Shape of the price-history listing by book: booksAPI.getPriceHistory
returns a bare PriceHistory array (src API client). -/
def priceHistoryListShape : ResponseShape :=
  .arr

/-- Whether a response shape carries the pagination part of the
five-tuple: the total count, page, limit and total-pages fields (the
items field is the remaining one). -/
def hasFiveTuple : ResponseShape → Bool
  | .obj fs => fs.contains "total" && fs.contains "page" &&
      fs.contains "limit" && fs.contains "total_pages"
  | .arr => false

/-- HTTP method of an API-client request. -/
inductive HttpMethod where
  | get
  | post
deriving DecidableEq

/-- One operation of the frontend API client. -/
structure Endpoint where
  ename : String
  method : HttpMethod
deriving DecidableEq

/-- The complete operation surface of the frontend API client
(booksAPI, alertsAPI, statsAPI, syncAPI in the services module), with
the HTTP verb each operation issues in the source. -/
def apiClientEndpoints : List Endpoint :=
  [⟨"books.list", .get⟩,
   ⟨"books.getByISBN", .get⟩,
   ⟨"books.getPriceHistory", .get⟩,
   ⟨"alerts.list", .get⟩,
   ⟨"alerts.getActive", .get⟩,
   ⟨"alerts.get", .get⟩,
   ⟨"alerts.acknowledge", .post⟩,
   ⟨"stats.getDashboard", .get⟩,
   ⟨"stats.getPriceTrends", .get⟩,
   ⟨"stats.getComparison", .get⟩,
   ⟨"stats.getPriceDistribution", .get⟩,
   ⟨"stats.getDataQuality", .get⟩,
   ⟨"stats.getRecentActivity", .get⟩,
   ⟨"sync.getStatus", .get⟩,
   ⟨"sync.getHistory", .get⟩]

/-- Nullability descriptor of one field of a TS interface. -/
structure FieldSpec where
  fname : String
  nullable : Bool
deriving DecidableEq

/-- Field list of the Book TS interface with each field's nullability,
transcribed from src/frontend/src/types/index.ts. -/
def bookFieldSpecs : List FieldSpec :=
  [⟨"id", false⟩,
   ⟨"isbn", false⟩,
   ⟨"title", true⟩,
   ⟨"author", true⟩,
   ⟨"packt_price", true⟩,
   ⟨"packt_url", true⟩,
   ⟨"last_updated", true⟩,
   ⟨"created_at", true⟩]

/-- Nullability of a named field of an interface descriptor. -/
def nullableOf (fs : List FieldSpec) (n : String) : Option Bool :=
  (fs.find? (fun f => f.fname == n)).map (fun f => f.nullable)

/-- Modelled from the spec: the two threshold-policy types recognised by
the configuration (spec §4.5, §6): percentage-of-price and flat-amount. -/
inductive ThresholdType where
  | percentage
  | absolute
deriving DecidableEq

/-- Modelled from the spec: a threshold policy is a type together with a
numeric value. -/
structure ThresholdPolicy where
  ttype : ThresholdType
  value : Rat

/-- Modelled from the spec (§4.5): the price delta of a comparison,
tracked price minus third-party price. -/
def delta (tracked third : Rat) : Rat :=
  tracked - third

/-- Modelled from the spec (§4.5): whether a delta meets or exceeds the
configured threshold, with an inclusive boundary; a percentage policy is
relative to the tracked price. -/
def thresholdMet (pol : ThresholdPolicy) (tracked d : Rat) : Bool :=
  match pol.ttype with
  | .percentage => decide (pol.value / 100 * tracked ≤ d)
  | .absolute => decide (pol.value ≤ d)

/-- Modelled from the spec (§4.5): a threshold crossing occurs for a
book with tracked price and a third-party observation exactly when the
delta is positive and the threshold is met or exceeded. -/
def isCrossing (pol : ThresholdPolicy) (tracked third : Rat) : Bool :=
  decide (0 < delta tracked third) && thresholdMet pol tracked (delta tracked third)

/-- Modelled from the spec (§3, §4.6): the status of a stored Alert in
the alert manager's state machine. -/
inductive AlertStatus where
  | pending
  | sent
  | failed
  | acknowledged
deriving DecidableEq

/-- Modelled from the spec (§4.6): the acknowledge status transition.
An alert in sent or failed moves to acknowledged; acknowledging an
already-acknowledged alert is a no-op, never an error; the transition is
total on every status. -/
def ackStatus : AlertStatus → AlertStatus
  | .sent => .acknowledged
  | .failed => .acknowledged
  | .acknowledged => .acknowledged
  | .pending => .pending

/-- Modelled from the spec (§3): a persisted Alert row as the alert
manager sees it — book reference, competing source, trigger time and
status (the price fields do not take part in deduplication and are
omitted from this model). -/
structure StoredAlert where
  bookId : Nat
  source : String
  triggeredAt : Nat
  status : AlertStatus
deriving DecidableEq

/-- Deduplication key of a stored alert: the (book, competing source)
pair (spec §4.6). -/
def pairOf (a : StoredAlert) : Nat × String :=
  (a.bookId, a.source)

/-- Modelled from the spec (§4.6): acknowledge applied to a stored
alert row. -/
def ackAlert (a : StoredAlert) : StoredAlert :=
  { a with status := ackStatus a.status }

/-- Modelled from the spec (§4.6): the alert manager's persisted state —
the alert rows and, per (book, source) pair, the time of the last
trigger for that pair (an association list). -/
structure MgrState where
  alerts : List StoredAlert
  lastTrigger : List ((Nat × String) × Nat)

/-- The alert manager's initial state: no alerts, no recorded triggers. -/
def emptyMgr : MgrState :=
  ⟨[], []⟩

/-- Last trigger time recorded for a (book, source) pair. -/
def lookupLast (st : MgrState) (p : Nat × String) : Option Nat :=
  (st.lastTrigger.find? (fun e => e.1 == p)).map (fun e => e.2)

/-- Modelled from the spec (§4.6): create an Alert row for a qualifying
crossing and record the trigger time for the pair; the row is sent when
dispatch succeeds and failed otherwise, and the cooldown runs from the
trigger time in both cases. -/
def fireAlert (st : MgrState) (b : Nat) (s : String) (now : Nat) (ok : Bool) : MgrState :=
  ⟨st.alerts ++ [⟨b, s, now, if ok then .sent else .failed⟩],
   ((b, s), now) :: st.lastTrigger⟩

/-- Modelled from the spec (§4.6): handle a qualifying threshold
crossing for a (book, source) pair at time now with cooldown cd.  A pair
still within cooldown of its last trigger is a silent skip; otherwise a
new Alert is fired. -/
def processCrossing (cd : Nat) (st : MgrState) (b : Nat) (s : String)
    (now : Nat) (ok : Bool) : MgrState :=
  match lookupLast st (b, s) with
  | none => fireAlert st b s now ok
  | some last => if now < last + cd then st else fireAlert st b s now ok

/-- Acknowledge the alert at a given position of the alert list; out of
range positions change nothing. -/
def ackList : List StoredAlert → Nat → List StoredAlert
  | [], _ => []
  | a :: rest, 0 => ackAlert a :: rest
  | a :: rest, Nat.succ i => a :: ackList rest i

/-- Modelled from the spec (§4.6): the operator acknowledge action on
the alert manager's state; it never touches trigger times, so it has no
effect on cooldown. -/
def ackAt (st : MgrState) (i : Nat) : MgrState :=
  ⟨ackList st.alerts i, st.lastTrigger⟩

/-- An externally observable event of the alert manager: a qualifying
crossing for a pair, or an operator acknowledge. -/
inductive MgrEvent where
  | crossing (b : Nat) (s : String) (now : Nat) (ok : Bool)
  | ack (i : Nat)

/-- One step of the alert manager. -/
def mgrStep (cd : Nat) (st : MgrState) : MgrEvent → MgrState
  | .crossing b s now ok => processCrossing cd st b s now ok
  | .ack i => ackAt st i

/-- Run the alert manager from its initial state over an event list. -/
def runEvents (cd : Nat) (evs : List MgrEvent) : MgrState :=
  evs.foldl (mgrStep cd) emptyMgr

/-- Number of alert rows recorded for a (book, source) pair. -/
def alertsFor (st : MgrState) (p : Nat × String) : Nat :=
  st.alerts.countP (fun a => pairOf a == p)

/-- Whether a stored alert is a sent alert for pair p triggered inside
the half-open window of length cd starting at t. -/
def sentInWindow (p : Nat × String) (t cd : Nat) (a : StoredAlert) : Bool :=
  pairOf a == p && a.status == .sent &&
    decide (t ≤ a.triggeredAt) && decide (a.triggeredAt < t + cd)

/-- Cooldown separation between two alert rows: rows for the same
(book, source) pair are triggered at least cd apart. -/
def sep (cd : Nat) (a b : StoredAlert) : Prop :=
  pairOf a = pairOf b →
    (a.triggeredAt + cd ≤ b.triggeredAt ∨ b.triggeredAt + cd ≤ a.triggeredAt)

/-- Invariant of the alert manager's state: every alert row's trigger is
bounded by the recorded last trigger of its pair, and any two rows of
the same pair are at least one cooldown apart. -/
structure MgrInv (cd : Nat) (st : MgrState) : Prop where
  bounded : ∀ a ∈ st.alerts, ∃ t, lookupLast st (pairOf a) = some t ∧ a.triggeredAt ≤ t
  spaced : st.alerts.Pairwise (sep cd)

/-- Modelled from the spec (§4.1, §4.3): the synchronizer's view of a
stored book row for a sync cycle. -/
structure BookRec where
  isbn : String
  title : Option String
  price : Option Rat
deriving DecidableEq

/-- Modelled from the spec (§4.2): parse one feed row — the ISBN must be
numeric and of fixed length 13 after normalization; a row failing the
structural check is a defect and yields no record.  Price parsing is not
needed by the properties below and the price field is left absent. -/
def parseRow (line : String) : Option BookRec :=
  match line.splitOn "," with
  | isbn :: title :: _ =>
      if isbn.length == 13 && isbn.all Char.isDigit then
        some ⟨isbn, if title == "" then none else some title, none⟩
      else none
  | _ => none

/-- Modelled from the spec (§4.2): the parser over the whole feed is a
pure function from the content to the validated record sequence. -/
def parseFeed (content : List String) : List BookRec :=
  content.filterMap parseRow

/-- Modelled from the spec (§4.1): the content fingerprint — a
deterministic hash over the full byte content of the feed. -/
def fingerprint (content : List String) : Nat :=
  content.foldl
    (fun h line => line.foldl (fun h2 c => h2 * 131 + c.toNat) (h * 131 + 10)) 7

/-- Modelled from the spec (§3, §4.1): the store as the sync cycle sees
it — the book rows and the last-accepted content fingerprint. -/
structure Store where
  books : List BookRec
  lastFingerprint : Option Nat
deriving DecidableEq

/-- Modelled from the spec (§4.3): reconcile one validated record —
insert when the ISBN is new, update when a field differs, no-op when the
stored row is unchanged.  Returns the new book list and the insert and
update counts contributed by this record. -/
def applyRecord (books : List BookRec) (r : BookRec) : List BookRec × Nat × Nat :=
  match books.find? (fun b => b.isbn == r.isbn) with
  | none => (books ++ [r], 1, 0)
  | some b =>
      if b == r then (books, 0, 0)
      else (books.map (fun x => if x.isbn == r.isbn then r else x), 0, 1)

/-- Modelled from the spec (§4.3): fold the reconciliation over the
record sequence, accumulating insert and update counts. -/
def syncRecords (books : List BookRec) (rs : List BookRec) : List BookRec × Nat × Nat :=
  rs.foldl
    (fun acc r =>
      let step := applyRecord acc.1 r
      (step.1, acc.2.1 + step.2.1, acc.2.2 + step.2.2))
    (books, 0, 0)

/-- Modelled from the spec (§4.1, §4.3): one full sync cycle.  The
watcher fingerprints the content; when the fingerprint equals the
last-accepted one the cycle ends with no further action; otherwise the
content is parsed, reconciled against the catalog, and the new
fingerprint is committed (the model has no store failures, so every run
is a successful cycle).  Returns the new store and the (inserted,
updated) counts. -/
def runCycle (st : Store) (content : List String) : Store × Nat × Nat :=
  if st.lastFingerprint = some (fingerprint content) then (st, 0, 0)
  else
    let synced := syncRecords st.books (parseFeed content)
    (⟨synced.1, some (fingerprint content)⟩, synced.2.1, synced.2.2)

/-- Appending strings concatenates their character data. -/
theorem data_append (s t : String) : (s ++ t).data = s.data ++ t.data := by
  cases s
  cases t
  rfl

/-- A string that starts with a dollar sign is never the string N/A. -/
theorem dollar_append_ne_na (s : String) : "$" ++ s ≠ "N/A" := by
  intro h
  have h3 := congrArg String.data h
  rw [data_append] at h3
  have h2 : ('$' :: s.data : List Char) = ['N', '/', 'A'] := h3
  injection h2 with h4 h5
  exact absurd h4 (by decide)

/-- Claim C9: formatPrice returns the string N/A exactly when its input
is null or undefined, and on every number p returns a dollar sign
followed by p rendered with exactly two decimal places (the rendered
data ends in a point followed by exactly two characters); it is a total
function of its input. -/
theorem formatPrice_spec :
    formatPrice none = "N/A" ∧
    (∀ p : Rat, formatPrice (some p) = "$" ++ toFixed2 p) ∧
    (∀ x : Option Rat, formatPrice x = "N/A" ↔ x = none) ∧
    (∀ p : Rat, ∃ l : List Char, ∃ d1 d2 : Char,
        (formatPrice (some p)).data = '$' :: (l ++ ['.', d1, d2])) := by
  refine ⟨rfl, fun p => rfl, ?_, ?_⟩
  · intro x
    cases x with
    | none => simp [formatPrice]
    | some p =>
        constructor
        · intro h
          exact absurd h (dollar_append_ne_na (toFixed2 p))
        · intro h
          cases h
  · intro p
    refine ⟨(signStr p).data ++ (toString (centsOf p / 100)).data,
        Nat.digitChar (centsOf p / 10 % 10), Nat.digitChar (centsOf p % 10), ?_⟩
    show ("$" ++ toFixed2 p).data = _
    rw [data_append]
    unfold toFixed2
    rw [data_append, data_append, data_append]
    simp [List.append_assoc]

/-- Claim C4: the Savings value shown for an alert equals the tracked
Packt price at trigger minus the competing third-party price, computed
from the alert's own recorded prices, in the Alerts page Savings cell
and in the RecentAlerts Save span alike. -/
theorem alert_savings_delta (a : Alert) :
    alertSavings a = a.packt_price - a.third_party_price ∧
    savingsCellText a = formatPrice (some (a.packt_price - a.third_party_price)) ∧
    recentAlertsSaveText a = savingsCellText a ∧
    savingsCellText a = formatPrice (some (alertSavings a)) :=
  ⟨rfl, rfl, rfl, rfl⟩

/-- Claim C2 (counterexample): not every list endpoint returns the
five-tuple — the sync-history listing response carries no page, limit or
total-pages fields, and the price-history listing returns a bare array
with no pagination fields at all. -/
theorem list_endpoints_five_tuple_counterexample :
    hasFiveTuple syncHistoryListResponseShape = false ∧
    hasFiveTuple priceHistoryListShape = false := by
  decide

/-- Claim C2 (amended): the book listing and the alert listing return
the five-tuple (items, total count, page, limit, total pages); the
sync-history listing returns only the items and the total count, and the
price-history listing by book returns a bare list of items. -/
theorem list_endpoints_five_tuple_amended :
    hasFiveTuple bookListResponseShape = true ∧
    hasFiveTuple alertListResponseShape = true ∧
    hasFiveTuple syncHistoryListResponseShape = false ∧
    (∃ fs, syncHistoryListResponseShape = .obj fs ∧
        fs.contains "total" = true ∧ fs.contains "history" = true) ∧
    priceHistoryListShape = .arr := by
  refine ⟨by decide, by decide, by decide, ⟨["history", "total"], rfl, by decide, by decide⟩, rfl⟩

/-- Claim C7: the frontend API client performs exactly one
state-changing operation, the alert-acknowledge POST; every other
operation it exposes issues a GET and is a read. -/
theorem acknowledge_only_write :
    ((apiClientEndpoints.filter (fun e => e.method == .post)).map
        (fun e => e.ename) = ["alerts.acknowledge"]) ∧
    (∀ e ∈ apiClientEndpoints, e.method = .get ∨ e.ename = "alerts.acknowledge") := by
  decide

/-- Claim C8: every Book carries a non-null ISBN while title, author,
tracked price, source URL and last-updated timestamp are each nullable,
and the nullable fields are independent: every combination of present
and absent values is realized by some Book. -/
theorem book_isbn_required_others_nullable :
    nullableOf bookFieldSpecs "isbn" = some false ∧
    nullableOf bookFieldSpecs "title" = some true ∧
    nullableOf bookFieldSpecs "author" = some true ∧
    nullableOf bookFieldSpecs "packt_price" = some true ∧
    nullableOf bookFieldSpecs "packt_url" = some true ∧
    nullableOf bookFieldSpecs "last_updated" = some true ∧
    (∀ t a p u l : Bool, ∃ b : Book, b.isbn = "9781234567897" ∧
        (b.title = none ↔ t = true) ∧ (b.author = none ↔ a = true) ∧
        (b.packt_price = none ↔ p = true) ∧ (b.packt_url = none ↔ u = true) ∧
        (b.last_updated = none ↔ l = true)) := by
  refine ⟨by decide, by decide, by decide, by decide, by decide, by decide, ?_⟩
  intro t a p u l
  refine ⟨⟨0, "9781234567897",
      if t then none else some "T", if a then none else some "A",
      if p then none else some 1, if u then none else some "U",
      if l then none else some "D", none⟩, rfl, ?_, ?_, ?_, ?_, ?_⟩ <;>
    cases t <;> cases a <;> cases p <;> cases u <;> cases l <;> simp

/-- Membership of the Missing Price label among a book's attention
issues is exactly the JavaScript falsiness of its tracked price. -/
theorem mem_missing_price_iff (b : Book) :
    ("Missing Price" ∈ getAttentionIssues b) ↔ jsPriceFalsy b.packt_price = true := by
  unfold getAttentionIssues
  split_ifs with h1 h2 h3 <;> simp_all

/-- Claim C10: the data-quality views classify a book with a tracked
price of exactly 0 as Missing Price: both the Books page attention
issues and the BooksNeedingAttention missing-price group flag a book
exactly when its price is null, undefined or 0. -/
theorem zero_price_missing_price (b : Book) :
    (("Missing Price" ∈ getAttentionIssues b) ↔
        (b.packt_price = none ∨ b.packt_price = some 0)) ∧
    (inMissingPriceGroup b = true ↔
        (b.packt_price = none ∨ b.packt_price = some 0)) := by
  have hf : jsPriceFalsy b.packt_price = true ↔
      (b.packt_price = none ∨ b.packt_price = some 0) := by
    cases hb : b.packt_price with
    | none => simp [jsPriceFalsy]
    | some p => simp [jsPriceFalsy]
  exact ⟨(mem_missing_price_iff b).trans hf, by rw [inMissingPriceGroup]; exact hf⟩

/-- Claim C3: the alert-acknowledge operation is idempotent and total:
it is defined on every alert, acknowledging twice equals acknowledging
once, an already-acknowledged alert is left unchanged, and any sent,
failed or acknowledged alert ends acknowledged. -/
theorem acknowledge_idempotent_total :
    (∀ a : StoredAlert, ackAlert (ackAlert a) = ackAlert a) ∧
    (∀ a : StoredAlert, a.status = .acknowledged → ackAlert a = a) ∧
    (∀ a : StoredAlert,
        a.status = .sent ∨ a.status = .failed ∨ a.status = .acknowledged →
        (ackAlert a).status = .acknowledged) := by
  refine ⟨?_, ?_, ?_⟩
  · intro a
    cases a with
    | mk b s t st => cases st <;> rfl
  · intro a h
    cases a with
    | mk b s t st => cases st <;> simp_all [ackAlert, ackStatus]
  · intro a h
    cases a with
    | mk b s t st => rcases h with h | h | h <;> simp_all [ackAlert, ackStatus]

/-- Witness for claim C3: acknowledging an already-acknowledged alert
leaves it unchanged, and acknowledging a sent alert acknowledges it. -/
theorem acknowledge_idempotent_total_witness :
    ackAlert ⟨1, "amazon", 0, .acknowledged⟩ = ⟨1, "amazon", 0, .acknowledged⟩ ∧
    (ackAlert ⟨1, "amazon", 0, .sent⟩).status = .acknowledged :=
  ⟨acknowledge_idempotent_total.2.1 ⟨1, "amazon", 0, .acknowledged⟩ rfl,
   acknowledge_idempotent_total.2.2 ⟨1, "amazon", 0, .sent⟩ (Or.inl rfl)⟩

/-- Claim C6: a threshold crossing occurs exactly when the delta is
positive and the configured threshold is met or exceeded, the boundary
being inclusive (a delta exactly at the percentage-of-price or at the
flat-amount threshold crosses); with tracked price 30 and a 10 percent
policy, an observation of 26 crosses while an observation of 27.50 does
not. -/
theorem threshold_crossing_spec :
    (∀ (pol : ThresholdPolicy) (tracked third : Rat),
        isCrossing pol tracked third = true ↔
          (0 < delta tracked third ∧
            thresholdMet pol tracked (delta tracked third) = true)) ∧
    (∀ v tracked third : Rat, 0 < delta tracked third →
        delta tracked third = v / 100 * tracked →
        isCrossing ⟨.percentage, v⟩ tracked third = true) ∧
    (∀ v tracked third : Rat, 0 < delta tracked third →
        delta tracked third = v →
        isCrossing ⟨.absolute, v⟩ tracked third = true) ∧
    isCrossing ⟨.percentage, 10⟩ 30 26 = true ∧
    isCrossing ⟨.percentage, 10⟩ 30 (55 / 2) = false := by
  refine ⟨?_, ?_, ?_, by norm_num [isCrossing, delta, thresholdMet],
      by norm_num [isCrossing, delta, thresholdMet]⟩
  · intro pol tracked third
    simp [isCrossing]
  · intro v tracked third hpos heq
    simp only [isCrossing, thresholdMet, Bool.and_eq_true, decide_eq_true_iff]
    exact ⟨hpos, le_of_eq heq.symm⟩
  · intro v tracked third hpos heq
    simp only [isCrossing, thresholdMet, Bool.and_eq_true, decide_eq_true_iff]
    exact ⟨hpos, le_of_eq heq.symm⟩

/-- Witness for claim C6: a delta exactly at the percentage threshold
crosses (tracked 30, threshold 3 percent, observation 29.10), and a
delta exactly at an absolute threshold crosses (tracked 30, threshold 2,
observation 28). -/
theorem threshold_crossing_spec_witness :
    isCrossing ⟨.percentage, 3⟩ 30 (291 / 10) = true ∧
    isCrossing ⟨.absolute, 2⟩ 30 28 = true :=
  ⟨threshold_crossing_spec.2.1 3 30 (291 / 10)
      (by norm_num [delta]) (by norm_num [delta]),
   threshold_crossing_spec.2.2.1 2 30 28
      (by norm_num [delta]) (by norm_num [delta])⟩

/-- Claim C5: re-running a full sync cycle on byte-identical feed
content is a no-op for every store and every content: the second run
reports zero inserted rows and zero updated rows and leaves the store,
its last-accepted fingerprint included, unchanged. -/
theorem sync_cycle_idempotent (st : Store) (content : List String) :
    runCycle (runCycle st content).1 content = ((runCycle st content).1, 0, 0) ∧
    (runCycle (runCycle st content).1 content).1.lastFingerprint =
      (runCycle st content).1.lastFingerprint := by
  by_cases h : st.lastFingerprint = some (fingerprint content)
  · constructor
    · simp [runCycle, h]
    · simp [runCycle, h]
  · constructor
    · simp [runCycle, h]
    · simp [runCycle, h]

/-- Acknowledging preserves the deduplication pair of an alert row. -/
theorem pairOf_ackAlert (a : StoredAlert) : pairOf (ackAlert a) = pairOf a := rfl

/-- Acknowledging preserves the trigger time of an alert row. -/
theorem triggeredAt_ackAlert (a : StoredAlert) :
    (ackAlert a).triggeredAt = a.triggeredAt := rfl

/-- Every element of an acknowledged alert list is an element of the
original list or the acknowledgement of one. -/
theorem ackList_mem {l : List StoredAlert} {i : Nat} {a : StoredAlert}
    (h : a ∈ ackList l i) : a ∈ l ∨ ∃ b ∈ l, a = ackAlert b := by
  induction l generalizing i with
  | nil => simp [ackList] at h
  | cons x rest ih =>
      cases i with
      | zero =>
          simp only [ackList] at h
          rcases List.mem_cons.mp h with h1 | h1
          · exact Or.inr ⟨x, List.mem_cons_self x rest, h1⟩
          · exact Or.inl (List.mem_cons_of_mem x h1)
      | succ j =>
          simp only [ackList] at h
          rcases List.mem_cons.mp h with h1 | h1
          · exact Or.inl (h1 ▸ List.mem_cons_self x rest)
          · rcases ih h1 with h2 | ⟨b, hb, hab⟩
            · exact Or.inl (List.mem_cons_of_mem x h2)
            · exact Or.inr ⟨b, List.mem_cons_of_mem x hb, hab⟩

/-- Cooldown separation is unaffected by acknowledging the left row. -/
theorem sep_ackAlert_left (cd : Nat) (a b : StoredAlert) :
    sep cd (ackAlert a) b ↔ sep cd a b := Iff.rfl

/-- Cooldown separation is unaffected by acknowledging the right row. -/
theorem sep_ackAlert_right (cd : Nat) (a b : StoredAlert) :
    sep cd a (ackAlert b) ↔ sep cd a b := Iff.rfl

/-- Acknowledging an alert preserves pairwise cooldown separation. -/
theorem ackList_pairwise {cd : Nat} {l : List StoredAlert} {i : Nat}
    (h : l.Pairwise (sep cd)) : (ackList l i).Pairwise (sep cd) := by
  induction l generalizing i with
  | nil => exact h
  | cons x rest ih =>
      rw [List.pairwise_cons] at h
      cases i with
      | zero =>
          simp only [ackList]
          rw [List.pairwise_cons]
          exact ⟨fun b hb => (sep_ackAlert_left cd x b).mpr (h.1 b hb), h.2⟩
      | succ j =>
          simp only [ackList]
          rw [List.pairwise_cons]
          refine ⟨?_, ih h.2⟩
          intro b hb
          rcases ackList_mem hb with h2 | ⟨b0, hb0, hb0e⟩
          · exact h.1 b h2
          · exact hb0e ▸ (sep_ackAlert_right cd x b0).mpr (h.1 b0 hb0)

/-- Firing an alert records the trigger for its pair and leaves every
other pair's recorded trigger unchanged. -/
theorem lookupLast_fireAlert (st : MgrState) (b : Nat) (s : String) (now : Nat)
    (ok : Bool) (p : Nat × String) :
    lookupLast (fireAlert st b s now ok) p =
      if (b, s) = p then some now else lookupLast st p := by
  by_cases h : (b, s) = p
  · simp [lookupLast, fireAlert, h]
  · simp [lookupLast, fireAlert, h]

/-- The alert manager's initial state satisfies the invariant. -/
theorem mgrInv_empty (cd : Nat) : MgrInv cd emptyMgr := by
  constructor
  · intro a ha
    simp [emptyMgr] at ha
  · exact List.Pairwise.nil

/-- Firing an alert preserves the invariant whenever any recorded last
trigger for the pair is at least one cooldown in the past. -/
theorem mgrInv_fireAlert {cd : Nat} {st : MgrState} {b : Nat} {s : String}
    {now : Nat} {ok : Bool} (hinv : MgrInv cd st)
    (hcase : ∀ last, lookupLast st (b, s) = some last → last + cd ≤ now) :
    MgrInv cd (fireAlert st b s now ok) := by
  constructor
  · intro a ha
    simp only [fireAlert, List.mem_append, List.mem_singleton] at ha
    rcases ha with ha | ha
    · obtain ⟨t, hl, hle⟩ := hinv.bounded a ha
      by_cases hp : (b, s) = pairOf a
      · have hb : lookupLast st (b, s) = some t := by rw [hp]; exact hl
        have hc := hcase t hb
        refine ⟨now, ?_, ?_⟩
        · rw [lookupLast_fireAlert, if_pos hp]
        · omega
      · refine ⟨t, ?_, hle⟩
        rw [lookupLast_fireAlert, if_neg hp]
        exact hl
    · subst ha
      refine ⟨now, ?_, le_refl now⟩
      rw [lookupLast_fireAlert]
      simp [pairOf]
  · simp only [fireAlert]
    rw [List.pairwise_append]
    refine ⟨hinv.spaced, List.pairwise_singleton _ _, ?_⟩
    intro x hx y hy
    simp only [List.mem_singleton] at hy
    subst hy
    intro hpair
    obtain ⟨t, hl, hle⟩ := hinv.bounded x hx
    have hpx : pairOf x = (b, s) := hpair
    rw [hpx] at hl
    have hc := hcase t hl
    left
    show x.triggeredAt + cd ≤ now
    omega

/-- Every alert-manager step preserves the invariant. -/
theorem mgrInv_step {cd : Nat} {st : MgrState} (hinv : MgrInv cd st) (e : MgrEvent) :
    MgrInv cd (mgrStep cd st e) := by
  cases e with
  | crossing b s now ok =>
      simp only [mgrStep, processCrossing]
      cases hl : lookupLast st (b, s) with
      | none =>
          exact mgrInv_fireAlert hinv (fun last h => by rw [hl] at h; cases h)
      | some last =>
          show MgrInv cd (if now < last + cd then st else fireAlert st b s now ok)
          by_cases hlt : now < last + cd
          · rw [if_pos hlt]
            exact hinv
          · rw [if_neg hlt]
            refine mgrInv_fireAlert hinv (fun t h => ?_)
            rw [hl] at h
            injection h with h2
            omega
  | ack i =>
      constructor
      · intro a ha
        rcases ackList_mem ha with h | ⟨a0, ha0, ha0e⟩
        · obtain ⟨t, hl, hle⟩ := hinv.bounded a h
          exact ⟨t, hl, hle⟩
        · obtain ⟨t, hl, hle⟩ := hinv.bounded a0 ha0
          subst ha0e
          exact ⟨t, hl, hle⟩
      · exact ackList_pairwise hinv.spaced

/-- The invariant holds in every reachable alert-manager state. -/
theorem mgrInv_runEvents (cd : Nat) (evs : List MgrEvent) :
    MgrInv cd (runEvents cd evs) := by
  suffices h : ∀ (l : List MgrEvent) (st : MgrState), MgrInv cd st →
      MgrInv cd (l.foldl (mgrStep cd) st) by
    exact h evs emptyMgr (mgrInv_empty cd)
  intro l
  induction l with
  | nil =>
      intro st h
      exact h
  | cons e es ih =>
      intro st h
      exact ih _ (mgrInv_step h e)

/-- A list whose elements pairwise exclude a predicate holding of both
contains at most one element satisfying it. -/
theorem countP_le_one_of_pairwise {α : Type*} (q : α → Bool) :
    ∀ l : List α, l.Pairwise (fun a b => ¬(q a = true ∧ q b = true)) →
      l.countP q ≤ 1
  | [], _ => by simp
  | a :: t, hp => by
      rw [List.pairwise_cons] at hp
      by_cases hqa : q a = true
      · have ht : t.countP q = 0 := by
          rw [List.countP_eq_zero]
          intro b hb hqb
          exact hp.1 b hb ⟨hqa, hqb⟩
        rw [List.countP_cons, ht]
        simp [hqa]
      · rw [List.countP_cons]
        simp only [hqa, if_false]
        simpa using countP_le_one_of_pairwise q t hp.2

/-- Two cooldown-separated rows cannot both be sent alerts for the same
pair triggered inside one window of length cd. -/
theorem sentInWindow_not_both {cd : Nat} {p : Nat × String} {t : Nat}
    {a b : StoredAlert} (h : sep cd a b) :
    ¬(sentInWindow p t cd a = true ∧ sentInWindow p t cd b = true) := by
  rintro ⟨ha, hb⟩
  simp only [sentInWindow, Bool.and_eq_true, decide_eq_true_iff, beq_iff_eq] at ha hb
  obtain ⟨⟨⟨hpa, hsa⟩, hta⟩, hta2⟩ := ha
  obtain ⟨⟨⟨hpb, hsb⟩, htb⟩, htb2⟩ := hb
  have hpair : pairOf a = pairOf b := by rw [hpa, hpb]
  rcases h hpair with h2 | h2 <;> omega

/-- Claim C1: for every (book, competing source) pair at most one sent
Alert exists within any window of one cooldown length, over every event
history; and two qualifying crossings for the same pair inside the
cooldown window create exactly one Alert while a third crossing after
the window has elapsed creates a second, regardless of whether the first
alert was acknowledged in between. -/
theorem alert_cooldown_dedup :
    (∀ (cd : Nat) (evs : List MgrEvent) (p : Nat × String) (t : Nat),
        (runEvents cd evs).alerts.countP (sentInWindow p t cd) ≤ 1) ∧
    (∀ (cd t1 t2 t3 b i : Nat) (s : String),
        t2 < t1 + cd → t1 + cd ≤ t3 →
        alertsFor (runEvents cd
            [.crossing b s t1 true, .ack i, .crossing b s t2 true]) (b, s) = 1 ∧
        alertsFor (runEvents cd
            [.crossing b s t1 true, .ack i, .crossing b s t2 true,
              .crossing b s t3 true]) (b, s) = 2) := by
  constructor
  · intro cd evs p t
    exact countP_le_one_of_pairwise _ _
      ((mgrInv_runEvents cd evs).spaced.imp (fun h => sentInWindow_not_both h))
  · intro cd t1 t2 t3 b i s h2 h3
    have hn3 : ¬ t3 < t1 + cd := by omega
    have key : ∀ σ : AlertStatus,
        (alertsFor (mgrStep cd ⟨[⟨b, s, t1, σ⟩], [((b, s), t1)]⟩
            (.crossing b s t2 true)) (b, s) = 1) ∧
        (alertsFor (mgrStep cd (mgrStep cd ⟨[⟨b, s, t1, σ⟩], [((b, s), t1)]⟩
            (.crossing b s t2 true)) (.crossing b s t3 true)) (b, s) = 2) := by
      intro σ
      have hlook : lookupLast ⟨[⟨b, s, t1, σ⟩], [((b, s), t1)]⟩ (b, s) = some t1 := by
        simp [lookupLast]
      have hskip : mgrStep cd ⟨[⟨b, s, t1, σ⟩], [((b, s), t1)]⟩
          (.crossing b s t2 true) = ⟨[⟨b, s, t1, σ⟩], [((b, s), t1)]⟩ := by
        simp [mgrStep, processCrossing, hlook, h2]
      rw [hskip]
      constructor
      · simp [alertsFor, pairOf]
      · have hfire : mgrStep cd ⟨[⟨b, s, t1, σ⟩], [((b, s), t1)]⟩
            (.crossing b s t3 true) =
            ⟨[⟨b, s, t1, σ⟩, ⟨b, s, t3, .sent⟩], [((b, s), t3), ((b, s), t1)]⟩ := by
          simp [mgrStep, processCrossing, hlook, hn3, fireAlert]
        rw [hfire]
        simp [alertsFor, pairOf]
    cases i with
    | zero =>
        have hack : mgrStep cd (mgrStep cd emptyMgr (.crossing b s t1 true)) (.ack 0) =
            ⟨[⟨b, s, t1, .acknowledged⟩], [((b, s), t1)]⟩ := rfl
        constructor
        · show alertsFor (mgrStep cd (mgrStep cd (mgrStep cd emptyMgr
              (.crossing b s t1 true)) (.ack 0)) (.crossing b s t2 true)) (b, s) = 1
          rw [hack]
          exact (key .acknowledged).1
        · show alertsFor (mgrStep cd (mgrStep cd (mgrStep cd (mgrStep cd emptyMgr
              (.crossing b s t1 true)) (.ack 0)) (.crossing b s t2 true))
              (.crossing b s t3 true)) (b, s) = 2
          rw [hack]
          exact (key .acknowledged).2
    | succ j =>
        have hack : mgrStep cd (mgrStep cd emptyMgr (.crossing b s t1 true))
            (.ack (j + 1)) = ⟨[⟨b, s, t1, .sent⟩], [((b, s), t1)]⟩ := rfl
        constructor
        · show alertsFor (mgrStep cd (mgrStep cd (mgrStep cd emptyMgr
              (.crossing b s t1 true)) (.ack (j + 1))) (.crossing b s t2 true)) (b, s) = 1
          rw [hack]
          exact (key .sent).1
        · show alertsFor (mgrStep cd (mgrStep cd (mgrStep cd (mgrStep cd emptyMgr
              (.crossing b s t1 true)) (.ack (j + 1))) (.crossing b s t2 true))
              (.crossing b s t3 true)) (b, s) = 2
          rw [hack]
          exact (key .sent).2

/-- Witness for claim C1: with cooldown 10, crossings at times 0 and 5
for book 1 and source amazon yield one alert even with an acknowledge in
between, and a further crossing at time 10 yields a second. -/
theorem alert_cooldown_dedup_witness :
    alertsFor (runEvents 10 [.crossing 1 "amazon" 0 true, .ack 0,
        .crossing 1 "amazon" 5 true]) (1, "amazon") = 1 ∧
    alertsFor (runEvents 10 [.crossing 1 "amazon" 0 true, .ack 0,
        .crossing 1 "amazon" 5 true, .crossing 1 "amazon" 10 true]) (1, "amazon") = 2 :=
  alert_cooldown_dedup.2 10 0 5 10 1 0 "amazon" (by decide) (by decide)

end BookTracker
